import Mathlib

/-!
Verification of the parallel-tempering example workflows
(`examples/parallel-tempering.py` and `examples/parallel-tempering-alt.py`)
of the dwave-hybrid repository.

Python floating-point values are modelled as real numbers, Python lists as
`List`, and the process random source as an explicit stream of draws
(`random.uniform(0, 1)` values, which lie in `[0, 1)`, and the raw draws
consumed by `random.choice`).  Fallible steps return `Except`.
-/

namespace PT

/-- A `dimod.SampleSet` as the swap code observes it: the only field the
swap step ever reads is `samples.first.energy`; `rest` stands for the
remaining content of the sample set (the sample assignments themselves). -/
structure SampleSet where
  first_energy : ℝ
  rest : ℕ

/-- Stream of pseudo-random draws: `unis n` is the n-th value produced by
`random.uniform(0, 1)` (computed as `0 + (1-0)*random.random()`, hence in
`[0, 1)`), and `ints n` the n-th raw draw used by `random.choice`.  The
pointers record how many draws of each kind have been consumed. -/
structure RandState where
  unis : ℕ → ℝ
  ints : ℕ → ℕ
  uptr : ℕ
  iptr : ℕ

/-- Pop one `random.uniform(0, 1)` draw. -/
def nextUniform (r : RandState) : ℝ × RandState :=
  (r.unis r.uptr, ⟨r.unis, r.ints, r.uptr + 1, r.iptr⟩)

/-- Pop one raw index draw (used by `random.choice`). -/
def nextInt (r : RandState) : ℕ × RandState :=
  (r.ints r.iptr, ⟨r.unis, r.ints, r.uptr, r.iptr + 1⟩)

/-- The acceptance weight `w = math.exp(min(0, beta_diff * energy_diff))`
computed at `parallel-tempering.py` line 80 and
`parallel-tempering-alt.py` line 84. -/
noncomputable def acceptWeight (beta_diff energy_diff : ℝ) : ℝ :=
  Real.exp (min 0 (beta_diff * energy_diff))

/-- A `hybrid.State` of `parallel-tempering.py` (replica-bound mode): it
carries `beta`, `samples`, and `aux` standing for every other key of the
state dict (the shared problem reference and any further entries). -/
structure State where
  beta : ℝ
  samples : SampleSet
  aux : ℕ

instance : Inhabited State := ⟨⟨0, ⟨0, 0⟩, 0⟩⟩

/-- `SwapReplicas.swap_pair` of `parallel-tempering.py` (lines 71-86):
reads `states[i]` and `states[j]`, computes the clamped weight, draws a
uniform and, on accept, assigns the two `samples` fields crosswise
(`states[i].samples, states[j].samples = s_j.samples, s_i.samples`).
The random draw is threaded explicitly. -/
noncomputable def swap_pair (states : List State) (i j : ℕ) (r : RandState) :
    List State × RandState :=
  let s_i := states.getD i default
  let s_j := states.getD j default
  let beta_diff := s_i.beta - s_j.beta
  let energy_diff := s_i.samples.first_energy - s_j.samples.first_energy
  let w := acceptWeight beta_diff energy_diff
  let pr := nextUniform r
  if w > pr.1 then
    ((states.set i ⟨s_i.beta, s_j.samples, s_i.aux⟩).set j
      ⟨s_j.beta, s_i.samples, s_j.aux⟩, pr.2)
  else
    (states, pr.2)

/-- `SwapReplicas.next` of `parallel-tempering.py` (lines 88-92):
`i = random.choice(range(len(states) - 1))`, `j = i + 1`, then
`swap_pair`.  `random.choice` on an empty range raises `IndexError`; on a
non-empty `range(m)` a raw draw `k` selects index `k % m`.  The evaluated
pair is also returned, mirroring the `hybrid.profiling` call counters. -/
noncomputable def SwapReplicas_next (states : List State) (r : RandState) :
    Except String (List State × RandState × (ℕ × ℕ)) :=
  let m := states.length - 1
  if m = 0 then
    Except.error "IndexError: cannot choose from an empty range"
  else
    let kr := nextInt r
    let i := kr.1 % m
    let res := swap_pair states i (i + 1) kr.2
    Except.ok (res.1, res.2, (i, i + 1))

/-- Modelled from the spec: `hybrid.Loop(SwapReplicas(), max_iter=n)` of
`parallel-tempering.py` line 115.  The `hybrid.Loop` runnable belongs to
this repository but is outside the example sources; section 4.4 specifies
`Loop(stage, maxIterations)` as applying the stage exactly
`maxIterations` times, feeding each iteration's output to the next.  The
log concatenates the pairs evaluated by the inner calls. -/
noncomputable def swapPhase : ℕ → List State → RandState →
    Except String (List State × RandState × List (ℕ × ℕ))
  | 0, states, r => Except.ok (states, r, [])
  | n + 1, states, r =>
    match SwapReplicas_next states r with
    | Except.error e => Except.error e
    | Except.ok (s1, r1, pr) =>
      match swapPhase n s1 r1 with
      | Except.error e => Except.error e
      | Except.ok (s2, r2, log) => Except.ok (s2, r2, pr :: log)

/-- A `hybrid.State` of `parallel-tempering-alt.py` (slot-bound mode): no
beta is stored in the state; `aux` stands for every key other than
`samples`. -/
structure AltState where
  samples : SampleSet
  aux : ℕ

instance : Inhabited AltState := ⟨⟨0, 0⟩, 0⟩

/-- `SwapReplicasSweepDown.swap_pair` of `parallel-tempering-alt.py`
(lines 76-90): the betas come from `self.betas` indexed by slot; on
accept the two whole state objects are exchanged between positions
(`states[i], states[j] = states[j], states[i]`). -/
noncomputable def alt_swap_pair (betas : ℕ → ℝ) (states : List AltState)
    (i j : ℕ) (r : RandState) : List AltState × RandState :=
  let beta_diff := betas i - betas j
  let energy_diff := (states.getD i default).samples.first_energy -
    (states.getD j default).samples.first_energy
  let w := acceptWeight beta_diff energy_diff
  let pr := nextUniform r
  if w > pr.1 then
    ((states.set i (states.getD j default)).set j (states.getD i default),
      pr.2)
  else
    (states, pr.2)

/-- `SwapReplicasSweepDown.next` of `parallel-tempering-alt.py`
(lines 92-96): `for i in range(len(states) - 1): states =
self.swap_pair(states, i, i + 1)`, extended with a log of the evaluated
pairs, mirroring the `hybrid.profiling` call counters. -/
noncomputable def sweep_next (betas : ℕ → ℝ) (states : List AltState)
    (r : RandState) : List AltState × RandState × List (ℕ × ℕ) :=
  (List.range (states.length - 1)).foldl
    (fun acc i =>
      let res := alt_swap_pair betas acc.1 i (i + 1) acc.2.1
      (res.1, res.2, acc.2.2 ++ [(i, i + 1)]))
    (states, r, [])

/-- `hybrid.Branches(*[FixedTemperatureSampler(beta, ...) for beta in betas])`
of `parallel-tempering-alt.py` line 115: branch `k` transforms state `k`.
The samplers themselves are the external annealing capability, passed in
as `f`. -/
def branches_update (f : ℕ → AltState → AltState) (states : List AltState) :
    List AltState :=
  states.mapIdx f

/-- Modelled from the spec: the outer `hybrid.Loop(update | swap,
max_iter=n_iterations)` of `parallel-tempering-alt.py` line 117;
`hybrid.Loop` and the pipe composition live in this repository outside
the example sources, and section 4.4 specifies them as exactly
`maxIterations` sequenced rounds, each round being the update stage then
the swap stage.  The logs of all rounds are concatenated. -/
noncomputable def alt_workflow (f : ℕ → AltState → AltState)
    (betas : ℕ → ℝ) : ℕ → List AltState → RandState →
      List AltState × RandState × List (ℕ × ℕ)
  | 0, states, r => (states, r, [])
  | n + 1, states, r =>
    let s1 := branches_update f states
    let res := sweep_next betas s1 r
    let rest := alt_workflow f betas n res.1 res.2.1
    (rest.1, rest.2.1, res.2.2 ++ rest.2.2)

/-- `np.geomspace(start, stop, num)` as called at `parallel-tempering.py`
line 107 and `parallel-tempering-alt.py` line 111, for real scalar
inputs: a zero endpoint raises `ValueError`; `num = 0` yields an empty
array; `num = 1` yields just `[start]`; otherwise `num` values
`start * (stop/start)^(i/(num-1))` for `i = 0, ..., num-1`.  The bounds
are the (rational-valued) floats returned by `neal.default_beta_range`.
No further validation is performed anywhere in the scripts. -/
noncomputable def geomspace (start stop : ℚ) (num : ℕ) :
    Except String (List ℝ) :=
  if start = 0 ∨ stop = 0 then
    Except.error "ValueError: Geometric sequence cannot include zero"
  else if num = 0 then Except.ok []
  else if num = 1 then Except.ok [(start : ℝ)]
  else
    Except.ok ((List.range num).map (fun (i : ℕ) =>
      (start : ℝ) * ((stop : ℝ) / (start : ℝ)) ^ ((i : ℝ) / ((num : ℝ) - 1))))

/-- The temperature-ladder construction `betas = np.geomspace(beta_hot,
beta_cold, n_replicas)` (`parallel-tempering.py` line 107,
`parallel-tempering-alt.py` line 111). -/
noncomputable def betas (beta_hot beta_cold : ℚ) (n_replicas : ℕ) :
    Except String (List ℝ) :=
  geomspace beta_hot beta_cold n_replicas

/-- The density metric `d = 200.0 * m / n / (n - 1)` computed at line 37
of both scripts; Python evaluates the two divisions left to right and a
zero divisor raises `ZeroDivisionError`.  `n` is the node count
`len(bqm)` and `m` the edge count `len(bqm.quadratic)`. -/
def density (n m : ℕ) : Except String ℚ :=
  if (n : ℚ) = 0 then
    Except.error "ZeroDivisionError: float division by zero"
  else if (n : ℚ) - 1 = 0 then
    Except.error "ZeroDivisionError: float division by zero"
  else
    Except.ok (200 * (m : ℚ) / (n : ℚ) / ((n : ℚ) - 1))

/-- Start-up of both scripts in program order: the metrics line (line 37)
runs before any replica state is constructed (line 110 resp. line 105):
when the density computation raises, no replica list is ever produced. -/
def startup (n m n_replicas : ℕ) (mk : ℕ → State) :
    Except String (ℚ × List State) :=
  match density n m with
  | Except.error e => Except.error e
  | Except.ok d => Except.ok (d, (List.range n_replicas).map mk)

/-- C1: for every pair of inverse temperatures and best energies, the
acceptance weight computed by the swap evaluator equals
`exp(min(0, (beta_a - beta_b) * (E_a - E_b)))`, and because the exponent
is clamped to `≤ 0` before exponentiation it satisfies `0 < w ≤ 1` for
all inputs — in particular also when `|(beta_a - beta_b)*(E_a - E_b)|`
exceeds 700; in the real-number model of the floats no NaN or infinity
can arise. -/
theorem accept_weight_bounds (beta_a beta_b E_a E_b : ℝ) :
    acceptWeight (beta_a - beta_b) (E_a - E_b) =
      Real.exp (min 0 ((beta_a - beta_b) * (E_a - E_b))) ∧
    0 < acceptWeight (beta_a - beta_b) (E_a - E_b) ∧
    acceptWeight (beta_a - beta_b) (E_a - E_b) ≤ 1 := by
  refine ⟨rfl, Real.exp_pos _, ?_⟩
  have h : Real.exp (min 0 ((beta_a - beta_b) * (E_a - E_b))) ≤ Real.exp 0 :=
    Real.exp_le_exp.mpr (min_le_left 0 ((beta_a - beta_b) * (E_a - E_b)))
  rw [Real.exp_zero] at h
  exact h

/-- C2: when the two inverse temperatures are equal (delta beta = 0) the
acceptance weight is exactly 1, and the comparison `w > p` against any
uniform draw (`random.uniform(0, 1)` yields `p < 1`) succeeds, so the
swap is always accepted regardless of the value drawn. -/
theorem swap_accepted_when_beta_diff_zero (beta E_a E_b p : ℝ)
    (hp1 : p < 1) :
    acceptWeight (beta - beta) (E_a - E_b) = 1 ∧
    acceptWeight (beta - beta) (E_a - E_b) > p := by
  have hw : acceptWeight (beta - beta) (E_a - E_b) = 1 := by
    simp [acceptWeight]
  refine ⟨hw, ?_⟩
  rw [hw]
  exact hp1

/-- Witness for C2 at beta 2, energies 5 and 3, draw 1/2. -/
theorem swap_accepted_when_beta_diff_zero_witness :
    (1:ℝ)/2 < 1 ∧
    (acceptWeight ((2:ℝ) - 2) ((5:ℝ) - 3) = 1 ∧
      acceptWeight ((2:ℝ) - 2) ((5:ℝ) - 3) > 1/2) :=
  ⟨by norm_num, swap_accepted_when_beta_diff_zero 2 5 3 (1/2) (by norm_num)⟩

instance : Inhabited SampleSet := ⟨⟨0, 0⟩⟩

/-- With a zero temperature difference the clamped exponent is zero and
the weight is one. -/
theorem acceptWeight_zero_left (ed : ℝ) : acceptWeight 0 ed = 1 := by
  simp [acceptWeight]

/-- Exchanging the entries at adjacent positions `i` and `i + 1` of a
list produces a permutation of the list. -/
theorem set_adjacent_swap_perm {α : Type} [Inhabited α] :
    ∀ (l : List α) (i : ℕ), i + 1 < l.length →
      ((l.set i (l.getD (i + 1) default)).set (i + 1)
        (l.getD i default)).Perm l
  | [], _, h => by simp at h
  | [_], _, h => by simp at h
  | a :: b :: t, 0, _ => by
    simp only [List.getD_cons_succ, List.getD_cons_zero, List.set_cons_succ,
      List.set_cons_zero]
    exact List.Perm.swap a b t
  | a :: b :: t, i + 1, h => by
    have ht : i + 1 < (b :: t).length := by
      simp only [List.length_cons] at h ⊢
      omega
    simp only [List.getD_cons_succ, List.set_cons_succ]
    exact List.Perm.cons a (set_adjacent_swap_perm (b :: t) i ht)

/-- Writing back the entry already stored at a position is a no-op. -/
theorem set_getD_self {α : Type} [Inhabited α] :
    ∀ (l : List α) (n : ℕ), l.set n (l.getD n default) = l
  | [], _ => by simp
  | _ :: _, 0 => by simp
  | a :: t, n + 1 => by
    simp only [List.getD_cons_succ, List.set_cons_succ]
    rw [set_getD_self t n]

/-- Updating one position does not change what is read at another. -/
theorem getD_set_ne {α : Type} [Inhabited α] :
    ∀ (l : List α) (i j : ℕ), i ≠ j → ∀ (a : α),
      (l.set i a).getD j default = l.getD j default
  | [], _, _, _, _ => by simp
  | _ :: _, 0, 0, h, _ => absurd rfl h
  | _ :: _, 0, _ + 1, _, _ => by simp
  | _ :: _, _ + 1, 0, _, _ => by simp
  | b :: t, i + 1, j + 1, h, a => by
    simp only [List.set_cons_succ, List.getD_cons_succ]
    exact getD_set_ne t i j (fun hh => h (by rw [hh])) a

/-- `getD` commutes with `map` when the function fixes the default. -/
theorem getD_map {α β : Type} [Inhabited α] [Inhabited β] (f : α → β)
    (hd : f default = default) :
    ∀ (l : List α) (n : ℕ), (l.map f).getD n default = f (l.getD n default)
  | [], n => by simp [hd]
  | a :: t, 0 => by simp
  | a :: t, n + 1 => by
    simp only [List.map_cons, List.getD_cons_succ]
    exact getD_map f hd t n

/-- `swap_pair` preserves the number of replicas. -/
theorem swap_pair_length (states : List State) (i j : ℕ) (r : RandState) :
    (swap_pair states i j r).1.length = states.length := by
  simp only [swap_pair]
  split
  · simp
  · rfl

/-- `alt_swap_pair` preserves the number of replicas. -/
theorem alt_swap_pair_length (betas_arr : ℕ → ℝ) (states : List AltState)
    (i j : ℕ) (r : RandState) :
    (alt_swap_pair betas_arr states i j r).1.length = states.length := by
  simp only [alt_swap_pair]
  split
  · simp
  · rfl

/-- One replica-bound swap evaluation permutes the samples across the
sequence (it exchanges the samples of the adjacent pair or leaves all in
place). -/
theorem swap_pair_samples_perm (states : List State) (i : ℕ)
    (r : RandState) (h : i + 1 < states.length) :
    ((swap_pair states i (i + 1) r).1.map State.samples).Perm
      (states.map State.samples) := by
  have hd : State.samples default = default := rfl
  simp only [swap_pair]
  split
  · rw [List.map_set, List.map_set]
    have hmap : i + 1 < (states.map State.samples).length := by simpa using h
    have hj : (State.samples ⟨(states.getD i default).beta,
        (states.getD (i + 1) default).samples, (states.getD i default).aux⟩) =
        (states.map State.samples).getD (i + 1) default := by
      rw [getD_map State.samples hd]
    have hi : (State.samples ⟨(states.getD (i + 1) default).beta,
        (states.getD i default).samples, (states.getD (i + 1) default).aux⟩) =
        (states.map State.samples).getD i default := by
      rw [getD_map State.samples hd]
    rw [hj, hi]
    exact set_adjacent_swap_perm (states.map State.samples) i hmap
  · exact List.Perm.refl _

/-- One slot-bound swap evaluation permutes the state sequence (it
exchanges the adjacent pair of whole states or leaves all in place). -/
theorem alt_swap_pair_perm (betas_arr : ℕ → ℝ) (states : List AltState)
    (i : ℕ) (r : RandState) (h : i + 1 < states.length) :
    (alt_swap_pair betas_arr states i (i + 1) r).1.Perm states := by
  simp only [alt_swap_pair]
  split
  · exact set_adjacent_swap_perm states i h
  · exact List.Perm.refl _

/-- C4: with exactly one replica the swap phase is a no-op under both
policies and raises no error.  The randomized policy runs
`hybrid.Loop(SwapReplicas(), max_iter=n_random_swaps)` with
`n_random_swaps = n_replicas - 1 = 0` iterations (so `SwapReplicas.next`
is never invoked), and the sweep-down policy iterates over the empty
`range(len(states) - 1)`. -/
theorem one_replica_swap_noop (s : State) (r : RandState)
    (betas_arr : ℕ → ℝ) (t : AltState) (r2 : RandState) :
    swapPhase (1 - 1) [s] r = Except.ok ([s], r, []) ∧
    sweep_next betas_arr [t] r2 = ([t], r2, []) := by
  constructor
  · rfl
  · simp [sweep_next]

/-- Counterexample for C5: the parameter set betaHot = 2, betaCold = 1,
n = 5 is invalid according to the claim (betaHot ≥ betaCold), yet the
ladder construction succeeds — no `InvalidRangeError` (nor any error) is
raised: the scripts perform no validation at all. -/
theorem betas_no_validation_counterexample :
    (1:ℚ) ≤ 2 ∧ (betas 2 1 5).isOk = true := by
  refine ⟨by norm_num, ?_⟩
  rw [betas, geomspace]
  norm_num
  rfl

/-- C5 (amended): no parameter validation is performed and no
`InvalidRangeError` exists — `np.geomspace` itself raises `ValueError`
only for a zero bound (and for a negative count), while `betaHot ≥
betaCold > 0` and `n ∈ {0, 1}` all succeed without error; for the valid
parameters `0 < betaHot < betaCold` and `n ≥ 2` the construction returns
`n` geometrically spaced, strictly increasing values inclusive of both
bounds. -/
theorem betas_valid_strictly_increasing (beta_hot beta_cold : ℚ) (n : ℕ)
    (h0 : 0 < beta_hot) (hlt : beta_hot < beta_cold) (hn : 2 ≤ n) :
    ∃ l : List ℝ, betas beta_hot beta_cold n = Except.ok l ∧
      l.length = n ∧ l.Pairwise (· < ·) ∧
      l[0]? = some (beta_hot : ℝ) ∧ l[n-1]? = some (beta_cold : ℝ) := by
  have hhotQ : beta_hot ≠ 0 := ne_of_gt h0
  have hcoldQ : beta_cold ≠ 0 := ne_of_gt (lt_trans h0 hlt)
  have hn0 : n ≠ 0 := by omega
  have hn1 : n ≠ 1 := by omega
  have hhot : (0:ℝ) < (beta_hot : ℝ) := by exact_mod_cast h0
  have hcold : (beta_hot : ℝ) < (beta_cold : ℝ) := by exact_mod_cast hlt
  have hden : (0:ℝ) < (n:ℝ) - 1 := by
    have h2 : (2:ℝ) ≤ (n:ℝ) := by exact_mod_cast hn
    linarith
  have hr : 1 < (beta_cold : ℝ) / (beta_hot : ℝ) :=
    (one_lt_div hhot).mpr hcold
  refine ⟨(List.range n).map (fun (i : ℕ) =>
      (beta_hot : ℝ) * ((beta_cold : ℝ) / (beta_hot : ℝ)) ^
        ((i : ℝ) / ((n : ℝ) - 1))), ?_, ?_, ?_, ?_, ?_⟩
  · simp [betas, geomspace, hhotQ, hcoldQ, hn0, hn1]
  · simp
  · rw [List.pairwise_map]
    refine (List.pairwise_lt_range n).imp ?_
    intro i j hij
    have hexp : (i:ℝ) / ((n:ℝ) - 1) < (j:ℝ) / ((n:ℝ) - 1) := by
      apply div_lt_div_of_pos_right _ hden
      exact_mod_cast hij
    exact mul_lt_mul_of_pos_left
      ((Real.rpow_lt_rpow_left_iff hr).mpr hexp) hhot
  · simp [List.getElem?_map, List.getElem?_range (by omega : 0 < n)]
  · have hmem : n - 1 < n := by omega
    have hcast : ((n - 1 : ℕ) : ℝ) = (n:ℝ) - 1 := by
      have h1 : (1:ℕ) ≤ n := by omega
      push_cast [h1]
      ring
    simp only [List.getElem?_map, List.getElem?_range hmem]
    rw [Option.map_some', hcast, div_self (ne_of_gt hden), Real.rpow_one]
    have hne : (beta_hot : ℝ) ≠ 0 := ne_of_gt hhot
    field_simp

/-- Witness for the amended C5 at betaHot = 1, betaCold = 2, n = 2. -/
theorem betas_valid_strictly_increasing_witness :
    (0:ℚ) < 1 ∧ (1:ℚ) < 2 ∧ 2 ≤ 2 ∧
    (∃ l : List ℝ, betas 1 2 2 = Except.ok l ∧
      l.length = 2 ∧ l.Pairwise (· < ·) ∧
      l[0]? = some ((1:ℚ) : ℝ) ∧ l[2-1]? = some ((2:ℚ) : ℝ)) :=
  ⟨by norm_num, by norm_num, le_refl 2,
    betas_valid_strictly_increasing 1 2 2 (by norm_num) (by norm_num)
      (le_refl 2)⟩

/-- C9: for every problem with at most one variable the density metric
`200.0 * m / n / (n - 1)` divides by zero, so start-up fails with
`ZeroDivisionError` before any replica state is created. -/
theorem startup_fails_on_small_problem (n m n_replicas : ℕ)
    (mk : ℕ → State) (h : n ≤ 1) :
    startup n m n_replicas mk =
      Except.error "ZeroDivisionError: float division by zero" := by
  interval_cases n
  · simp [startup, density]
  · norm_num [startup, density]

/-- Witness for C9 at n = 1 node, m = 0 edges, 10 replicas. -/
theorem startup_fails_on_small_problem_witness :
    1 ≤ 1 ∧ startup 1 0 10 (fun _ => default) =
      Except.error "ZeroDivisionError: float division by zero" :=
  ⟨le_refl 1,
    startup_fails_on_small_problem 1 0 10 (fun _ => default) (le_refl 1)⟩

/-- C10: one swap-pair evaluation on an adjacent pair — accepted or not,
in either mode — preserves the length of the replica sequence and the
multiset of SampleSets held across all replicas: samples are only
permuted between the two chosen replicas, never created, dropped or
duplicated. -/
theorem swap_preserves_sample_multiset (states : List State)
    (alt_states : List AltState) (betas_arr : ℕ → ℝ) (i k : ℕ)
    (r r2 : RandState) (hi : i + 1 < states.length)
    (hk : k + 1 < alt_states.length) :
    ((swap_pair states i (i + 1) r).1.length = states.length ∧
      ((swap_pair states i (i + 1) r).1.map State.samples :
          Multiset SampleSet) =
        (states.map State.samples : Multiset SampleSet)) ∧
    ((alt_swap_pair betas_arr alt_states k (k + 1) r2).1.length =
        alt_states.length ∧
      ((alt_swap_pair betas_arr alt_states k (k + 1) r2).1.map
          AltState.samples : Multiset SampleSet) =
        (alt_states.map AltState.samples : Multiset SampleSet)) :=
  ⟨⟨swap_pair_length states i (i + 1) r,
    Multiset.coe_eq_coe.mpr (swap_pair_samples_perm states i r hi)⟩,
   ⟨alt_swap_pair_length betas_arr alt_states k (k + 1) r2,
    Multiset.coe_eq_coe.mpr
      ((alt_swap_pair_perm betas_arr alt_states k r2 hk).map
        AltState.samples)⟩⟩

/-- Witness for C10 on concrete two-replica sequences at index 0. -/
theorem swap_preserves_sample_multiset_witness :
    (0 + 1 < ([⟨0, ⟨5, 0⟩, 0⟩, ⟨1, ⟨3, 1⟩, 1⟩] : List State).length) ∧
    (0 + 1 < ([⟨⟨5, 0⟩, 0⟩, ⟨⟨3, 1⟩, 1⟩] : List AltState).length) ∧
    (((swap_pair [⟨0, ⟨5, 0⟩, 0⟩, ⟨1, ⟨3, 1⟩, 1⟩] 0 (0 + 1)
          ⟨fun _ => 1/2, fun _ => 0, 0, 0⟩).1.length =
        ([⟨0, ⟨5, 0⟩, 0⟩, ⟨1, ⟨3, 1⟩, 1⟩] : List State).length ∧
      ((swap_pair [⟨0, ⟨5, 0⟩, 0⟩, ⟨1, ⟨3, 1⟩, 1⟩] 0 (0 + 1)
          ⟨fun _ => 1/2, fun _ => 0, 0, 0⟩).1.map State.samples :
          Multiset SampleSet) =
        (([⟨0, ⟨5, 0⟩, 0⟩, ⟨1, ⟨3, 1⟩, 1⟩] : List State).map State.samples :
          Multiset SampleSet)) ∧
    ((alt_swap_pair (fun _ => 1) [⟨⟨5, 0⟩, 0⟩, ⟨⟨3, 1⟩, 1⟩] 0 (0 + 1)
          ⟨fun _ => 1/2, fun _ => 0, 0, 0⟩).1.length =
        ([⟨⟨5, 0⟩, 0⟩, ⟨⟨3, 1⟩, 1⟩] : List AltState).length ∧
      ((alt_swap_pair (fun _ => 1) [⟨⟨5, 0⟩, 0⟩, ⟨⟨3, 1⟩, 1⟩] 0 (0 + 1)
          ⟨fun _ => 1/2, fun _ => 0, 0, 0⟩).1.map AltState.samples :
          Multiset SampleSet) =
        (([⟨⟨5, 0⟩, 0⟩, ⟨⟨3, 1⟩, 1⟩] : List AltState).map AltState.samples :
          Multiset SampleSet))) :=
  ⟨by simp, by simp,
    swap_preserves_sample_multiset [⟨0, ⟨5, 0⟩, 0⟩, ⟨1, ⟨3, 1⟩, 1⟩]
      [⟨⟨5, 0⟩, 0⟩, ⟨⟨3, 1⟩, 1⟩] (fun _ => 1) 0 0
      ⟨fun _ => 1/2, fun _ => 0, 0, 0⟩ ⟨fun _ => 1/2, fun _ => 0, 0, 0⟩
      (by simp) (by simp)⟩

/-- Counterexample for C3: in slot-bound mode
(`parallel-tempering-alt.py` line 88) an accepted swap exchanges the two
whole state objects between the positions.  With two states that differ
in a non-samples field (`aux`), after an accepted swap position 0 holds
the state object that was at position 1, so the assignment of state
objects to positions changes, and a field other than the SampleSet now
read at position 0 has changed. -/
theorem slot_bound_swap_counterexample :
    (alt_swap_pair (fun _ => 1) [⟨⟨5, 0⟩, 0⟩, ⟨⟨3, 0⟩, 1⟩] 0 1
        ⟨fun _ => 1/2, fun _ => 0, 0, 0⟩).1 =
      [⟨⟨3, 0⟩, 1⟩, ⟨⟨5, 0⟩, 0⟩] ∧
    (([⟨⟨5, 0⟩, 0⟩, ⟨⟨3, 0⟩, 1⟩] : List AltState).getD 0 default).aux ≠
      ((alt_swap_pair (fun _ => 1) [⟨⟨5, 0⟩, 0⟩, ⟨⟨3, 0⟩, 1⟩] 0 1
        ⟨fun _ => 1/2, fun _ => 0, 0, 0⟩).1.getD 0 default).aux := by
  have hres : (alt_swap_pair (fun _ => 1) [⟨⟨5, 0⟩, 0⟩, ⟨⟨3, 0⟩, 1⟩] 0 1
      ⟨fun _ => 1/2, fun _ => 0, 0, 0⟩).1 =
      [⟨⟨3, 0⟩, 1⟩, ⟨⟨5, 0⟩, 0⟩] := by
    simp only [alt_swap_pair, nextUniform, List.getD_cons_zero,
      List.getD_cons_succ]
    rw [show (1:ℝ) - 1 = 0 by norm_num, acceptWeight_zero_left]
    rw [if_pos (by norm_num : (1:ℝ) > 1/2)]
    simp
  refine ⟨hres, ?_⟩
  rw [hres]
  simp

/-- C3 (amended): a swap-pair evaluation either rejects (sequence
unchanged) or accepts, and on accept: in replica-bound mode only the two
`samples` fields are exchanged — the beta field and every other field of
every state stay at their positions — while in slot-bound mode the two
whole state objects are exchanged between the two adjacent positions
(their samples thereby move between the slots; the per-slot betas array
is not part of the states and is untouched by the swap). -/
theorem swap_moves_only_samples_or_whole_states (states : List State)
    (i : ℕ) (r : RandState) (alt_states : List AltState)
    (betas_arr : ℕ → ℝ) (k : ℕ) (r2 : RandState) :
    ((swap_pair states i (i + 1) r).1.map State.beta =
        states.map State.beta ∧
     (swap_pair states i (i + 1) r).1.map State.aux =
        states.map State.aux ∧
     ((swap_pair states i (i + 1) r).1 = states ∨
      (swap_pair states i (i + 1) r).1.map State.samples =
        ((states.map State.samples).set i
          ((states.getD (i + 1) default).samples)).set (i + 1)
          ((states.getD i default).samples))) ∧
    ((alt_swap_pair betas_arr alt_states k (k + 1) r2).1 = alt_states ∨
     (alt_swap_pair betas_arr alt_states k (k + 1) r2).1 =
       (alt_states.set k (alt_states.getD (k + 1) default)).set (k + 1)
         (alt_states.getD k default)) := by
  constructor
  · simp only [swap_pair]
    split
    · refine ⟨?_, ?_, Or.inr ?_⟩
      · rw [List.map_set, List.map_set]
        have hb : State.beta default = default := rfl
        have h1 : (State.beta ⟨(states.getD i default).beta,
            (states.getD (i + 1) default).samples,
            (states.getD i default).aux⟩) =
            (states.map State.beta).getD i default := by
          rw [getD_map State.beta hb]
        have h2 : (State.beta ⟨(states.getD (i + 1) default).beta,
            (states.getD i default).samples,
            (states.getD (i + 1) default).aux⟩) =
            ((states.map State.beta).set i
              ((states.map State.beta).getD i default)).getD (i + 1)
              default := by
          rw [set_getD_self, getD_map State.beta hb]
        rw [h1, h2, set_getD_self, set_getD_self]
      · rw [List.map_set, List.map_set]
        have ha : State.aux default = default := rfl
        have h1 : (State.aux ⟨(states.getD i default).beta,
            (states.getD (i + 1) default).samples,
            (states.getD i default).aux⟩) =
            (states.map State.aux).getD i default := by
          rw [getD_map State.aux ha]
        have h2 : (State.aux ⟨(states.getD (i + 1) default).beta,
            (states.getD i default).samples,
            (states.getD (i + 1) default).aux⟩) =
            ((states.map State.aux).set i
              ((states.map State.aux).getD i default)).getD (i + 1)
              default := by
          rw [set_getD_self, getD_map State.aux ha]
        rw [h1, h2, set_getD_self, set_getD_self]
      · rw [List.map_set, List.map_set]
    · exact ⟨rfl, rfl, Or.inl rfl⟩
  · simp only [alt_swap_pair]
    split
    · exact Or.inr rfl
    · exact Or.inl rfl

/-- The sweep-down fold appends one log entry `(i, i + 1)` per visited
index, in the order of the index list. -/
theorem sweep_foldl_log (betas_arr : ℕ → ℝ) :
    ∀ (l : List ℕ) (acc : List AltState × RandState × List (ℕ × ℕ)),
      (l.foldl (fun acc i =>
        let res := alt_swap_pair betas_arr acc.1 i (i + 1) acc.2.1
        (res.1, res.2, acc.2.2 ++ [(i, i + 1)])) acc).2.2 =
        acc.2.2 ++ l.map (fun i => (i, i + 1))
  | [], acc => by simp
  | i :: t, acc => by
    simp only [List.foldl_cons, List.map_cons]
    rw [sweep_foldl_log betas_arr t _]
    simp

/-- The sweep-down fold preserves the number of replicas. -/
theorem sweep_foldl_length (betas_arr : ℕ → ℝ) :
    ∀ (l : List ℕ) (acc : List AltState × RandState × List (ℕ × ℕ)),
      (l.foldl (fun acc i =>
        let res := alt_swap_pair betas_arr acc.1 i (i + 1) acc.2.1
        (res.1, res.2, acc.2.2 ++ [(i, i + 1)])) acc).1.length =
        acc.1.length
  | [], acc => by simp
  | i :: t, acc => by
    simp only [List.foldl_cons]
    rw [sweep_foldl_length betas_arr t _]
    simp [alt_swap_pair_length]

/-- `SwapReplicasSweepDown.next` preserves the number of replicas. -/
theorem sweep_next_length (betas_arr : ℕ → ℝ) (states : List AltState)
    (r : RandState) :
    (sweep_next betas_arr states r).1.length = states.length := by
  rw [sweep_next]
  exact sweep_foldl_length betas_arr _ _

/-- One sweep-down round logs exactly `N - 1` evaluated pairs. -/
theorem sweep_next_log_length (betas_arr : ℕ → ℝ) (states : List AltState)
    (r : RandState) :
    (sweep_next betas_arr states r).2.2.length = states.length - 1 := by
  rw [sweep_next, sweep_foldl_log]
  simp

/-- The parallel update stage preserves the number of replicas. -/
theorem branches_update_length (f : ℕ → AltState → AltState)
    (states : List AltState) :
    (branches_update f states).length = states.length := by
  simp [branches_update]

/-- The whole run logs exactly `iters * (N - 1)` swap evaluations. -/
theorem alt_workflow_log_length (f : ℕ → AltState → AltState)
    (betas_arr : ℕ → ℝ) :
    ∀ (iters : ℕ) (states : List AltState) (r : RandState),
      (alt_workflow f betas_arr iters states r).2.2.length =
        iters * (states.length - 1)
  | 0, states, r => by simp [alt_workflow]
  | n + 1, states, r => by
    have h1 := sweep_next_log_length betas_arr (branches_update f states) r
    have h2 := sweep_next_length betas_arr (branches_update f states) r
    have h3 := alt_workflow_log_length f betas_arr n
      (sweep_next betas_arr (branches_update f states) r).1
      (sweep_next betas_arr (branches_update f states) r).2.1
    simp only [alt_workflow, List.length_append]
    rw [h1, h3, h2, branches_update_length]
    ring

/-- C6: the sweep-down policy evaluates and applies swaps for exactly
the adjacent pairs (0,1), (1,2), ..., (N-2, N-1), in strictly increasing
index order within a single sequential fold (so each pair's evaluation
reads the state left by the previous pair's outcome), performing exactly
N-1 swap evaluations per round; a whole run of `numIterations` rounds
performs exactly `numIterations * (N-1)` evaluations. -/
theorem sweep_down_order_and_count (betas_arr : ℕ → ℝ)
    (states : List AltState) (r : RandState)
    (f : ℕ → AltState → AltState) (iters : ℕ) (r0 : RandState)
    (states0 : List AltState) :
    ((sweep_next betas_arr states r).2.2 =
      (List.range (states.length - 1)).map (fun i => (i, i + 1)) ∧
     (sweep_next betas_arr states r).2.2.length = states.length - 1) ∧
    (alt_workflow f betas_arr iters states0 r0).2.2.length =
      iters * (states0.length - 1) := by
  refine ⟨⟨?_, sweep_next_log_length betas_arr states r⟩,
    alt_workflow_log_length f betas_arr iters states0 r0⟩
  rw [sweep_next, sweep_foldl_log]
  simp

/-- With at least two replicas one inner call of the randomized policy
succeeds and evaluates exactly the adjacent pair `(i, i + 1)` for the
drawn index `i = k % (N - 1)`. -/
theorem SwapReplicas_next_ok (states : List State) (r : RandState)
    (h2 : 2 ≤ states.length) :
    SwapReplicas_next states r = Except.ok
      ((swap_pair states (r.ints r.iptr % (states.length - 1))
        (r.ints r.iptr % (states.length - 1) + 1) (nextInt r).2).1,
       (swap_pair states (r.ints r.iptr % (states.length - 1))
        (r.ints r.iptr % (states.length - 1) + 1) (nextInt r).2).2,
       (r.ints r.iptr % (states.length - 1),
        r.ints r.iptr % (states.length - 1) + 1)) := by
  have hm : ¬ (states.length - 1 = 0) := by omega
  simp only [SwapReplicas_next, nextInt, hm, if_false]

/-- With at least two replicas the randomized swap phase of `m` inner
iterations never fails, logs exactly one pair per iteration and
preserves the number of replicas. -/
theorem swapPhase_ok : ∀ (m : ℕ) (states : List State) (r : RandState),
    2 ≤ states.length →
    ∃ s2 r2 log, swapPhase m states r = Except.ok (s2, r2, log) ∧
      log.length = m ∧ s2.length = states.length
  | 0, states, r, _ => ⟨states, r, [], rfl, rfl, rfl⟩
  | n + 1, states, r, h2 => by
    have hnext := SwapReplicas_next_ok states r h2
    have hlen : (swap_pair states (r.ints r.iptr % (states.length - 1))
        (r.ints r.iptr % (states.length - 1) + 1) (nextInt r).2).1.length =
        states.length := swap_pair_length states _ _ _
    have hrec := swapPhase_ok n
      (swap_pair states (r.ints r.iptr % (states.length - 1))
        (r.ints r.iptr % (states.length - 1) + 1) (nextInt r).2).1
      (swap_pair states (r.ints r.iptr % (states.length - 1))
        (r.ints r.iptr % (states.length - 1) + 1) (nextInt r).2).2
      (by rw [hlen]; exact h2)
    rcases hrec with ⟨s2, r2, log, hphase, hloglen, hs2len⟩
    refine ⟨s2, r2,
      (r.ints r.iptr % (states.length - 1),
        r.ints r.iptr % (states.length - 1) + 1) :: log, ?_, ?_, ?_⟩
    · simp only [swapPhase, hnext, hphase]
    · simp [hloglen]
    · rw [hs2len, hlen]

/-- Concrete round: with three identical replicas and a stream that
always draws raw index 0 and uniform 2 (so every swap is rejected), the
randomized policy evaluates pair (0, 1) twice and never touches (1, 2). -/
theorem swapPhase_three_replicas_eval :
    swapPhase 2 [⟨0, ⟨0, 0⟩, 0⟩, ⟨0, ⟨0, 0⟩, 0⟩, ⟨0, ⟨0, 0⟩, 0⟩]
      ⟨fun _ => 2, fun _ => 0, 0, 0⟩ =
    Except.ok ([⟨0, ⟨0, 0⟩, 0⟩, ⟨0, ⟨0, 0⟩, 0⟩, ⟨0, ⟨0, 0⟩, 0⟩],
      ⟨fun _ => 2, fun _ => 0, 2, 2⟩, [(0, 1), (0, 1)]) := by
  have hw : acceptWeight ((0:ℝ) - 0) ((0:ℝ) - 0) = 1 := by
    rw [show (0:ℝ) - 0 = 0 by norm_num]
    exact acceptWeight_zero_left 0
  have hrej : ¬ (acceptWeight ((0:ℝ) - 0) ((0:ℝ) - 0) > 2) := by
    rw [hw]
    norm_num
  simp [swapPhase, SwapReplicas_next, swap_pair, nextInt, nextUniform, hrej]

/-- C7: with N ≥ 2 replicas, each inner iteration of the randomized
policy reduces its raw draw uniformly onto an index `i` in `[0, N-2]`
(every index in the range is attainable), evaluates and applies only the
swap of the adjacent pair `(i, i + 1)`, and the inner iteration is
repeated exactly N-1 times per round (`n_random_swaps = n_replicas - 1`);
no stream of draws is guaranteed to cover every adjacent pair within a
round. -/
theorem randomized_single_pair_policy (states : List State)
    (r : RandState) (h2 : 2 ≤ states.length) :
    (SwapReplicas_next states r = Except.ok
      ((swap_pair states (r.ints r.iptr % (states.length - 1))
        (r.ints r.iptr % (states.length - 1) + 1) (nextInt r).2).1,
       (swap_pair states (r.ints r.iptr % (states.length - 1))
        (r.ints r.iptr % (states.length - 1) + 1) (nextInt r).2).2,
       (r.ints r.iptr % (states.length - 1),
        r.ints r.iptr % (states.length - 1) + 1)) ∧
     r.ints r.iptr % (states.length - 1) ≤ states.length - 2 ∧
     (∀ t, t ≤ states.length - 2 →
       ∃ k : ℕ, k % (states.length - 1) = t)) ∧
    (∃ s2 r2 log, swapPhase (states.length - 1) states r =
        Except.ok (s2, r2, log) ∧ log.length = states.length - 1) ∧
    ¬ (∀ (s3 : List State) (r3 : RandState), 2 ≤ s3.length →
        ∀ s4 r4 log, swapPhase (s3.length - 1) s3 r3 =
          Except.ok (s4, r4, log) →
        ∀ i, i + 1 < s3.length → (i, i + 1) ∈ log) := by
  refine ⟨⟨SwapReplicas_next_ok states r h2, ?_, ?_⟩, ?_, ?_⟩
  · have := Nat.mod_lt (r.ints r.iptr) (show 0 < states.length - 1 by omega)
    omega
  · intro t ht
    exact ⟨t, Nat.mod_eq_of_lt (by omega)⟩
  · rcases swapPhase_ok (states.length - 1) states r h2 with
      ⟨s2, r2, log, h, hl, _⟩
    exact ⟨s2, r2, log, h, hl⟩
  · intro hall
    have h3 : 2 ≤ ([⟨0, ⟨0, 0⟩, 0⟩, ⟨0, ⟨0, 0⟩, 0⟩, ⟨0, ⟨0, 0⟩, 0⟩] :
        List State).length := by simp
    have hmem := hall _ _ h3 _ _ _ swapPhase_three_replicas_eval 1 (by simp)
    simp at hmem

/-- Witness for C7 on a concrete two-replica sequence. -/
theorem randomized_single_pair_policy_witness :
    2 ≤ ([⟨0, ⟨0, 0⟩, 0⟩, ⟨0, ⟨0, 0⟩, 0⟩] : List State).length ∧
    ((SwapReplicas_next [⟨0, ⟨0, 0⟩, 0⟩, ⟨0, ⟨0, 0⟩, 0⟩]
        ⟨fun _ => 2, fun _ => 0, 0, 0⟩ = Except.ok
      ((swap_pair [⟨0, ⟨0, 0⟩, 0⟩, ⟨0, ⟨0, 0⟩, 0⟩]
        ((RandState.mk (fun _ => 2) (fun _ => 0) 0 0).ints
            (RandState.mk (fun _ => 2) (fun _ => 0) 0 0).iptr %
          (([⟨0, ⟨0, 0⟩, 0⟩, ⟨0, ⟨0, 0⟩, 0⟩] : List State).length - 1))
        ((RandState.mk (fun _ => 2) (fun _ => 0) 0 0).ints
            (RandState.mk (fun _ => 2) (fun _ => 0) 0 0).iptr %
          (([⟨0, ⟨0, 0⟩, 0⟩, ⟨0, ⟨0, 0⟩, 0⟩] : List State).length - 1) + 1)
        (nextInt (RandState.mk (fun _ => 2) (fun _ => 0) 0 0)).2).1,
       (swap_pair [⟨0, ⟨0, 0⟩, 0⟩, ⟨0, ⟨0, 0⟩, 0⟩]
        ((RandState.mk (fun _ => 2) (fun _ => 0) 0 0).ints
            (RandState.mk (fun _ => 2) (fun _ => 0) 0 0).iptr %
          (([⟨0, ⟨0, 0⟩, 0⟩, ⟨0, ⟨0, 0⟩, 0⟩] : List State).length - 1))
        ((RandState.mk (fun _ => 2) (fun _ => 0) 0 0).ints
            (RandState.mk (fun _ => 2) (fun _ => 0) 0 0).iptr %
          (([⟨0, ⟨0, 0⟩, 0⟩, ⟨0, ⟨0, 0⟩, 0⟩] : List State).length - 1) + 1)
        (nextInt (RandState.mk (fun _ => 2) (fun _ => 0) 0 0)).2).2,
       ((RandState.mk (fun _ => 2) (fun _ => 0) 0 0).ints
            (RandState.mk (fun _ => 2) (fun _ => 0) 0 0).iptr %
          (([⟨0, ⟨0, 0⟩, 0⟩, ⟨0, ⟨0, 0⟩, 0⟩] : List State).length - 1),
        (RandState.mk (fun _ => 2) (fun _ => 0) 0 0).ints
            (RandState.mk (fun _ => 2) (fun _ => 0) 0 0).iptr %
          (([⟨0, ⟨0, 0⟩, 0⟩, ⟨0, ⟨0, 0⟩, 0⟩] : List State).length - 1) + 1)) ∧
     (RandState.mk (fun _ => 2) (fun _ => 0) 0 0).ints
        (RandState.mk (fun _ => 2) (fun _ => 0) 0 0).iptr %
          (([⟨0, ⟨0, 0⟩, 0⟩, ⟨0, ⟨0, 0⟩, 0⟩] : List State).length - 1) ≤
        ([⟨0, ⟨0, 0⟩, 0⟩, ⟨0, ⟨0, 0⟩, 0⟩] : List State).length - 2 ∧
     (∀ t, t ≤ ([⟨0, ⟨0, 0⟩, 0⟩, ⟨0, ⟨0, 0⟩, 0⟩] : List State).length - 2 →
       ∃ k : ℕ, k %
        (([⟨0, ⟨0, 0⟩, 0⟩, ⟨0, ⟨0, 0⟩, 0⟩] : List State).length - 1) = t)) ∧
    (∃ s2 r2 log, swapPhase
        (([⟨0, ⟨0, 0⟩, 0⟩, ⟨0, ⟨0, 0⟩, 0⟩] : List State).length - 1)
        [⟨0, ⟨0, 0⟩, 0⟩, ⟨0, ⟨0, 0⟩, 0⟩] ⟨fun _ => 2, fun _ => 0, 0, 0⟩ =
        Except.ok (s2, r2, log) ∧ log.length =
          ([⟨0, ⟨0, 0⟩, 0⟩, ⟨0, ⟨0, 0⟩, 0⟩] : List State).length - 1) ∧
    ¬ (∀ (s3 : List State) (r3 : RandState), 2 ≤ s3.length →
        ∀ s4 r4 log, swapPhase (s3.length - 1) s3 r3 =
          Except.ok (s4, r4, log) →
        ∀ i, i + 1 < s3.length → (i, i + 1) ∈ log)) :=
  ⟨by simp,
    randomized_single_pair_policy [⟨0, ⟨0, 0⟩, 0⟩, ⟨0, ⟨0, 0⟩, 0⟩]
      ⟨fun _ => 2, fun _ => 0, 0, 0⟩ (by simp)⟩

end PT
